import Mathlib

/- Shallow embedding of `torch/optim/adam.py` (the Adam optimizer's `step`
method). Tensors are modelled as lists of scalars over a linear ordered
field, with the square-root operation passed explicitly so that the exact
model instantiates `sqrt := Real.sqrt` at `α := ℝ`; floating-point
arithmetic is idealized as exact field arithmetic. Python's in-place tensor
mutation becomes explicit state passing, and the `raise` statement becomes
an `Except` value threaded through the parameter loop. -/

set_option maxHeartbeats 1000000

/-- A gradient tensor as seen by `step`: its elementwise data (`p.grad.data`
in the source) and its storage-format flag (`grad.is_sparse`). -/
structure Grad (α : Type) where
  data : List α
  is_sparse : Bool
deriving DecidableEq

/-- A trainable parameter: its value tensor `p.data` and the optionally
attached gradient `p.grad` (absent when no backward pass has produced one). -/
structure Param (α : Type) where
  data : List α
  grad : Option (Grad α)
deriving DecidableEq

/-- The per-parameter optimizer state entry `self.state[p]`: the step
counter and the two exponential moving averages. An absent entry is
modelled as `none` at the call sites. -/
structure AdamState (α : Type) where
  step : Nat
  exp_avg : List α
  exp_avg_sq : List α
deriving DecidableEq

/-- The hyperparameters of one parameter group, as stored in
`self.param_groups` by the constructor: `lr`, `betas = (beta1, beta2)`,
`eps` and `weight_decay`. -/
structure Hyper (α : Type) where
  lr : α
  beta1 : α
  beta2 : α
  eps : α
  weight_decay : α
deriving DecidableEq

/-- Elementwise combination of three lists, used to model the fused tensor
operations `addcmul_` and `addcdiv_` (which combine a base tensor with two
argument tensors). -/
def zipWith3 {α : Type} (f : α → α → α → α) : List α → List α → List α → List α
  | a :: as, b :: bs, c :: cs => f a b c :: zipWith3 f as bs cs
  | _, _, _ => []

/-- The exact message of the `RuntimeError` raised for sparse gradients. -/
def sparseGradMsg : String :=
  "Adam does not support sparse gradients, please consider SparseAdam instead"

/-- `if group['weight_decay'] != 0: grad = grad.add(group['weight_decay'], p.data)`:
the weight-decay term is folded into a fresh gradient tensor (out of place)
exactly when the coefficient is nonzero. -/
def applyWeightDecay {α : Type} [LinearOrderedField α] (wd : α)
    (grad pdata : List α) : List α :=
  if wd ≠ 0 then List.zipWith (fun gv pv => gv + wd * pv) grad pdata else grad

/-- `exp_avg.mul_(beta1).add_(1 - beta1, grad)`: first-moment update. -/
def updExpAvg {α : Type} [LinearOrderedField α] (beta1 : α)
    (exp_avg grad : List α) : List α :=
  List.zipWith (fun m gv => beta1 * m + (1 - beta1) * gv) exp_avg grad

/-- `exp_avg_sq.mul_(beta2).addcmul_(1 - beta2, grad, grad)`: second-moment
update. -/
def updExpAvgSq {α : Type} [LinearOrderedField α] (beta2 : α)
    (exp_avg_sq grad : List α) : List α :=
  List.zipWith (fun v gv => beta2 * v + (1 - beta2) * (gv * gv)) exp_avg_sq grad

/-- `denom = exp_avg_sq.sqrt().add_(group['eps'])` elementwise. -/
def mkDenom {α : Type} [LinearOrderedField α] (sqrt : α → α) (eps : α)
    (exp_avg_sq : List α) : List α :=
  exp_avg_sq.map (fun v => sqrt v + eps)

/-- `p.data.addcdiv_(-step_size, exp_avg, denom)`: in-place parameter update
`p += -step_size * (exp_avg / denom)` elementwise. -/
def updData {α : Type} [LinearOrderedField α] (step_size : α)
    (pdata exp_avg denom : List α) : List α :=
  zipWith3 (fun pv m d => pv + -step_size * (m / d)) pdata exp_avg denom

/-- One iteration of the inner loop of `Adam.step` for a single parameter
`p` whose current state entry is `st` (`none` models `len(state) == 0`,
i.e. no entry yet). Returns the updated parameter together with its updated
state entry, or the error raised for a sparse gradient. A parameter without
a gradient is skipped unchanged. -/
def stepParam {α : Type} [LinearOrderedField α] (sqrt : α → α) (g : Hyper α)
    (p : Param α) (st : Option (AdamState α)) :
    Except String (Param α × Option (AdamState α)) :=
  match p.grad with
  | none => .ok (p, st)
  | some gr =>
    if gr.is_sparse then .error sparseGradMsg
    else
      let st0 := st.getD
        ⟨0, List.replicate p.data.length 0, List.replicate p.data.length 0⟩
      let t := st0.step + 1
      let grad := applyWeightDecay g.weight_decay gr.data p.data
      let exp_avg := updExpAvg g.beta1 st0.exp_avg grad
      let exp_avg_sq := updExpAvgSq g.beta2 st0.exp_avg_sq grad
      let denom := mkDenom sqrt g.eps exp_avg_sq
      let bias_correction1 := 1 - g.beta1 ^ t
      let bias_correction2 := 1 - g.beta2 ^ t
      let step_size := g.lr * sqrt bias_correction2 / bias_correction1
      .ok (⟨updData step_size p.data exp_avg denom, p.grad⟩,
        some ⟨t, exp_avg, exp_avg_sq⟩)

/-- The loop `for p in group['params']` of `Adam.step`, with Python's
exception semantics made explicit: each parameter is processed in order and
mutations persist; when a parameter raises, it and every later parameter
are left untouched and the error message is reported alongside the
resulting collection. -/
def stepList {α : Type} [LinearOrderedField α] (sqrt : α → α) (g : Hyper α) :
    List (Param α × Option (AdamState α)) →
    List (Param α × Option (AdamState α)) × Option String
  | [] => ([], none)
  | x :: xs =>
    match stepParam sqrt g x.1 x.2 with
    | .error e => (x :: xs, some e)
    | .ok x' =>
      let r := stepList sqrt g xs
      (x' :: r.1, r.2)

/-- N consecutive calls to `step` restricted to a single parameter, the
k-th call seeing the k-th gradient of `grads` attached to the parameter. -/
def runSteps {α : Type} [LinearOrderedField α] (sqrt : α → α) (g : Hyper α) :
    List (Grad α) → Param α × Option (AdamState α) →
    Except String (Param α × Option (AdamState α))
  | [], x => .ok x
  | gr :: grs, x =>
    match stepParam sqrt g ⟨x.1.data, some gr⟩ x.2 with
    | .error e => .error e
    | .ok x' => runSteps sqrt g grs x'

/-- The step counter recorded in an optional state entry: `0` when no entry
exists yet (the lazy-initialization value), the stored counter otherwise. -/
def stateStep {α : Type} : Option (AdamState α) → Nat
  | none => 0
  | some s => s.step

/-- Variant of `stepParam` with the weight-decay term omitted entirely,
following the spec's words for the weight-decay additivity property: the
raw gradient is used for the moment updates unconditionally. -/
def stepParamNoDecay {α : Type} [LinearOrderedField α] (sqrt : α → α)
    (g : Hyper α) (p : Param α) (st : Option (AdamState α)) :
    Except String (Param α × Option (AdamState α)) :=
  match p.grad with
  | none => .ok (p, st)
  | some gr =>
    if gr.is_sparse then .error sparseGradMsg
    else
      let st0 := st.getD
        ⟨0, List.replicate p.data.length 0, List.replicate p.data.length 0⟩
      let t := st0.step + 1
      let exp_avg := updExpAvg g.beta1 st0.exp_avg gr.data
      let exp_avg_sq := updExpAvgSq g.beta2 st0.exp_avg_sq gr.data
      let denom := mkDenom sqrt g.eps exp_avg_sq
      let bias_correction1 := 1 - g.beta1 ^ t
      let bias_correction2 := 1 - g.beta2 ^ t
      let step_size := g.lr * sqrt bias_correction2 / bias_correction1
      .ok (⟨updData step_size p.data exp_avg denom, p.grad⟩,
        some ⟨t, exp_avg, exp_avg_sq⟩)

/- Helper lemmas shared by several claims. -/

/-- A sparse gradient makes `stepParam` fail with the exact runtime error,
performing no mutation (no updated parameter or state entry is produced). -/
theorem stepParam_sparse {α : Type} [LinearOrderedField α] (sqrt : α → α)
    (g : Hyper α) (p : Param α) (gr : Grad α) (st : Option (AdamState α))
    (hg : p.grad = some gr) (hs : gr.is_sparse = true) :
    stepParam sqrt g p st = .error sparseGradMsg := by
  unfold stepParam
  rw [hg]
  simp [hs]

/-- A present dense gradient makes `stepParam` succeed, producing a state
entry whose counter is the previous counter plus one and leaving the
gradient slot untouched. -/
theorem stepParam_dense_ok {α : Type} [LinearOrderedField α] (sqrt : α → α)
    (g : Hyper α) (p : Param α) (gr : Grad α) (st : Option (AdamState α))
    (hg : p.grad = some gr) (hs : gr.is_sparse = false) :
    ∃ q : Param α, ∃ st' : AdamState α,
      stepParam sqrt g p st = .ok (q, some st') ∧
      st'.step = stateStep st + 1 ∧ q.grad = p.grad := by
  unfold stepParam
  rw [hg]
  simp only [hs, Bool.false_eq_true, if_false]
  refine ⟨_, _, rfl, ?_, rfl⟩
  cases st <;> rfl

/-- Claim C7: a parameter with no gradient attached is silently skipped by
`step`: its value and its state entry are returned unchanged and no error
is raised. -/
theorem stepParam_no_grad_skip {α : Type} [LinearOrderedField α]
    (sqrt : α → α) (g : Hyper α) (p : Param α) (st : Option (AdamState α))
    (h : p.grad = none) :
    stepParam sqrt g p st = .ok (p, st) := by
  unfold stepParam
  rw [h]

/-- Witness for C7 at a concrete input: a parameter carrying no gradient is
returned unchanged together with its (absent) state entry. -/
theorem stepParam_no_grad_skip_witness :
    (⟨[1], none⟩ : Param ℚ).grad = none ∧
    stepParam (fun x => x) (⟨1/1000, 9/10, 999/1000, 1/100000000, 0⟩ : Hyper ℚ)
      ⟨[1], none⟩ none = .ok (⟨[1], none⟩, none) :=
  ⟨rfl, stepParam_no_grad_skip _ _ _ _ rfl⟩

/-- Claim C4: when the gradient of a parameter is marked sparse, `step`
raises before any mutation of that parameter: `stepParam` yields the error
without producing an updated parameter or state entry (so no lazy
initialization happens), and in the surrounding loop the pair of that
parameter and its state entry is kept exactly as it was. -/
theorem sparse_rejection_no_mutation {α : Type} [LinearOrderedField α]
    (sqrt : α → α) (g : Hyper α) (p : Param α) (gr : Grad α)
    (st : Option (AdamState α)) (suf : List (Param α × Option (AdamState α)))
    (hg : p.grad = some gr) (hs : gr.is_sparse = true) :
    stepParam sqrt g p st = .error sparseGradMsg ∧
    stepList sqrt g ((p, st) :: suf) = ((p, st) :: suf, some sparseGradMsg) := by
  have h1 := stepParam_sparse sqrt g p gr st hg hs
  refine ⟨h1, ?_⟩
  unfold stepList
  rw [h1]

/-- Witness for C4 at a concrete input: a sparse gradient produces the
documented runtime error and the parameter/state pair survives unchanged in
the collection. -/
theorem sparse_rejection_no_mutation_witness :
    (⟨[1], some ⟨[2], true⟩⟩ : Param ℚ).grad = some ⟨[2], true⟩ ∧
    (⟨[2], true⟩ : Grad ℚ).is_sparse = true ∧
    stepParam (fun x => x) (⟨1/1000, 9/10, 999/1000, 1/100000000, 0⟩ : Hyper ℚ)
      ⟨[1], some ⟨[2], true⟩⟩ none = .error sparseGradMsg ∧
    stepList (fun x => x) (⟨1/1000, 9/10, 999/1000, 1/100000000, 0⟩ : Hyper ℚ)
      [(⟨[1], some ⟨[2], true⟩⟩, none)]
      = ([(⟨[1], some ⟨[2], true⟩⟩, none)], some sparseGradMsg) :=
  ⟨rfl, rfl,
    sparse_rejection_no_mutation (fun x => x) _ _ ⟨[2], true⟩ none [] rfl rfl⟩

/-- Counterexample to claim C2 as stated: with a sparse-gradient parameter
first and a dense-gradient sibling second, the raise aborts the whole loop,
so the dense sibling is NOT processed — its value stays `[1]` and its state
entry is never created — contradicting "every other (sibling) parameter in
the collection is still processed and updated normally". -/
theorem sparse_abort_sibling_not_processed :
    stepList Real.sqrt (⟨1/1000, 9/10, 999/1000, 1/100000000, 0⟩ : Hyper ℝ)
      [(⟨[1], some ⟨[1], true⟩⟩, none), (⟨[1], some ⟨[1], false⟩⟩, none)]
    = ([(⟨[1], some ⟨[1], true⟩⟩, none), (⟨[1], some ⟨[1], false⟩⟩, none)],
        some sparseGradMsg) := rfl

/-- Claim C2 amended: the raise aborts the loop rather than being confined
to one parameter. Parameters processed before the sparse one keep their
updates, while the sparse parameter itself and every sibling after it are
left completely untouched, and the error is surfaced to the caller. -/
theorem stepList_abort_on_sparse {α : Type} [LinearOrderedField α]
    (sqrt : α → α) (g : Hyper α)
    (pre suf : List (Param α × Option (AdamState α)))
    (p : Param α) (gr : Grad α) (st : Option (AdamState α))
    (hg : p.grad = some gr) (hs : gr.is_sparse = true)
    (hok : (stepList sqrt g pre).2 = none) :
    stepList sqrt g (pre ++ (p, st) :: suf)
      = ((stepList sqrt g pre).1 ++ (p, st) :: suf, some sparseGradMsg) := by
  induction pre with
  | nil =>
    have h1 := stepParam_sparse sqrt g p gr st hg hs
    simp only [List.nil_append, stepList, h1]
  | cons x xs ih =>
    cases h : stepParam sqrt g x.1 x.2 with
    | error e =>
      exfalso
      unfold stepList at hok
      rw [h] at hok
      simp at hok
    | ok x' =>
      have hok' : (stepList sqrt g xs).2 = none := by
        unfold stepList at hok
        rw [h] at hok
        simpa using hok
      simp only [List.cons_append, stepList, h, List.append_eq, ih hok']

/-- Witness for the amended C2 at a concrete input: a dense parameter ahead
of the sparse one is processed and keeps its update, the sparse parameter
and the dense sibling after it stay untouched, and the error is reported. -/
theorem stepList_abort_on_sparse_witness :
    (⟨[1], some ⟨[1], true⟩⟩ : Param ℚ).grad = some ⟨[1], true⟩ ∧
    (⟨[1], true⟩ : Grad ℚ).is_sparse = true ∧
    (stepList (fun x => x) (⟨1/1000, 9/10, 999/1000, 1/100000000, 0⟩ : Hyper ℚ)
        [(⟨[1], some ⟨[2], false⟩⟩, none)]).2 = none ∧
    stepList (fun x => x) (⟨1/1000, 9/10, 999/1000, 1/100000000, 0⟩ : Hyper ℚ)
        ([(⟨[1], some ⟨[2], false⟩⟩, none)]
          ++ (⟨[1], some ⟨[1], true⟩⟩, none) :: [(⟨[3], some ⟨[4], false⟩⟩, none)])
      = ((stepList (fun x => x) (⟨1/1000, 9/10, 999/1000, 1/100000000, 0⟩ : Hyper ℚ)
            [(⟨[1], some ⟨[2], false⟩⟩, none)]).1
          ++ (⟨[1], some ⟨[1], true⟩⟩, none) :: [(⟨[3], some ⟨[4], false⟩⟩, none)],
          some sparseGradMsg) := by
  have hok : (stepList (fun x => x)
      (⟨1/1000, 9/10, 999/1000, 1/100000000, 0⟩ : Hyper ℚ)
      [(⟨[1], some ⟨[2], false⟩⟩, none)]).2 = none := by
    norm_num [stepList, stepParam, applyWeightDecay, updExpAvg, updExpAvgSq,
      mkDenom, updData, zipWith3]
  exact ⟨rfl, rfl, hok,
    stepList_abort_on_sparse (fun x => x) _ _ _ _ ⟨[1], true⟩ none rfl rfl hok⟩

/-- Claim C1: for a parameter with a dense gradient and an existing state
entry, `stepParam` performs exactly the Adam recurrence: both moments are
updated by their exponential moving averages, the denominator is
`sqrt(exp_avg_sq) + eps`, the scalar step size is
`lr * sqrt(1 - beta2^t) / (1 - beta1^t)` for the incremented counter `t`,
and the parameter is decremented by `step_size * exp_avg / denom`. -/
theorem stepParam_recurrence {α : Type} [LinearOrderedField α]
    (sqrt : α → α) (g : Hyper α) (p : Param α) (gr : Grad α) (st : AdamState α)
    (hg : p.grad = some gr) (hs : gr.is_sparse = false) :
    stepParam sqrt g p (some st) =
      (let grad := applyWeightDecay g.weight_decay gr.data p.data
       let exp_avg := List.zipWith
         (fun m gv => g.beta1 * m + (1 - g.beta1) * gv) st.exp_avg grad
       let exp_avg_sq := List.zipWith
         (fun v gv => g.beta2 * v + (1 - g.beta2) * (gv * gv)) st.exp_avg_sq grad
       let denom := List.map (fun v => sqrt v + g.eps) exp_avg_sq
       let step_size := g.lr * sqrt (1 - g.beta2 ^ (st.step + 1))
         / (1 - g.beta1 ^ (st.step + 1))
       .ok (⟨zipWith3 (fun pv m d => pv - step_size * (m / d))
              p.data exp_avg denom, p.grad⟩,
         some ⟨st.step + 1, exp_avg, exp_avg_sq⟩)) := by
  unfold stepParam
  rw [hg]
  simp only [hs, Bool.false_eq_true, if_false, Option.getD_some]
  have hfun : ∀ s : α, (fun pv m d => pv + -s * (m / d))
      = (fun pv m d : α => pv - s * (m / d)) := by
    intro s
    funext pv m d
    ring
  simp only [updExpAvg, updExpAvgSq, mkDenom, updData, hfun]

/-- Witness for C1 at a concrete input (singleton tensors over ℚ with the
square root modelled by an explicit function): the call reduces to exactly
the stated recurrence. -/
theorem stepParam_recurrence_witness :
    (⟨[1], some ⟨[2], false⟩⟩ : Param ℚ).grad = some ⟨[2], false⟩ ∧
    (⟨[2], false⟩ : Grad ℚ).is_sparse = false ∧
    stepParam (fun x => x) (⟨1, 1/2, 1/2, 1, 0⟩ : Hyper ℚ)
        ⟨[1], some ⟨[2], false⟩⟩ (some ⟨0, [0], [0]⟩) =
      (let grad := applyWeightDecay (0 : ℚ) [2] [1]
       let exp_avg := List.zipWith
         (fun m gv => (1/2 : ℚ) * m + (1 - 1/2) * gv) [0] grad
       let exp_avg_sq := List.zipWith
         (fun v gv => (1/2 : ℚ) * v + (1 - 1/2) * (gv * gv)) [0] grad
       let denom := List.map (fun v => (fun x => x) v + (1 : ℚ)) exp_avg_sq
       let step_size := (1 : ℚ) * (fun x => x) (1 - (1/2 : ℚ) ^ (0 + 1))
         / (1 - (1/2 : ℚ) ^ (0 + 1))
       .ok (⟨zipWith3 (fun pv m d => pv - step_size * (m / d))
              [1] exp_avg denom, some ⟨[2], false⟩⟩,
         some ⟨0 + 1, exp_avg, exp_avg_sq⟩)) :=
  ⟨rfl, rfl,
    stepParam_recurrence (fun x => x) ⟨1, 1/2, 1/2, 1, 0⟩
      ⟨[1], some ⟨[2], false⟩⟩ ⟨[2], false⟩ ⟨0, [0], [0]⟩ rfl rfl⟩

/-- Claim C6: on the first update of a parameter (no state entry yet) with
a dense gradient, `stepParam` lazily initializes the state with counter 0
and all-zero moment tensors shape-matched to the parameter, applies the
recurrence to those zero moments, and stores counter 1. -/
theorem stepParam_first_call {α : Type} [LinearOrderedField α]
    (sqrt : α → α) (g : Hyper α) (p : Param α) (gr : Grad α)
    (hg : p.grad = some gr) (hs : gr.is_sparse = false) :
    stepParam sqrt g p none =
      (let zeros := List.replicate p.data.length (0 : α)
       let grad := applyWeightDecay g.weight_decay gr.data p.data
       let exp_avg := updExpAvg g.beta1 zeros grad
       let exp_avg_sq := updExpAvgSq g.beta2 zeros grad
       let denom := mkDenom sqrt g.eps exp_avg_sq
       let step_size := g.lr * sqrt (1 - g.beta2 ^ 1) / (1 - g.beta1 ^ 1)
       .ok (⟨updData step_size p.data exp_avg denom, p.grad⟩,
         some ⟨1, exp_avg, exp_avg_sq⟩)) := by
  unfold stepParam
  rw [hg]
  simp only [hs, Bool.false_eq_true, if_false, Option.getD_none]

/-- Witness for C6 at a concrete input: the first call runs the recurrence
on zero-filled moments and stores step counter 1. -/
theorem stepParam_first_call_witness :
    (⟨[1], some ⟨[2], false⟩⟩ : Param ℚ).grad = some ⟨[2], false⟩ ∧
    (⟨[2], false⟩ : Grad ℚ).is_sparse = false ∧
    stepParam (fun x => x) (⟨1, 1/2, 1/2, 1, 0⟩ : Hyper ℚ)
        ⟨[1], some ⟨[2], false⟩⟩ none =
      (let zeros := List.replicate ([1] : List ℚ).length (0 : ℚ)
       let grad := applyWeightDecay (0 : ℚ) [2] [1]
       let exp_avg := updExpAvg (1/2 : ℚ) zeros grad
       let exp_avg_sq := updExpAvgSq (1/2 : ℚ) zeros grad
       let denom := mkDenom (fun x => x) (1 : ℚ) exp_avg_sq
       let step_size := (1 : ℚ) * (fun x => x) (1 - (1/2 : ℚ) ^ 1)
         / (1 - (1/2 : ℚ) ^ 1)
       .ok (⟨updData step_size [1] exp_avg denom, some ⟨[2], false⟩⟩,
         some ⟨1, exp_avg, exp_avg_sq⟩)) :=
  ⟨rfl, rfl,
    stepParam_first_call (fun x => x) ⟨1, 1/2, 1/2, 1, 0⟩
      ⟨[1], some ⟨[2], false⟩⟩ ⟨[2], false⟩ rfl rfl⟩

/-- Claim C10: `step` never mutates a parameter's stored gradient: the
weight-decay term produces a fresh local tensor, so whenever `stepParam`
succeeds, the returned parameter carries exactly the gradient it came with. -/
theorem stepParam_preserves_grad {α : Type} [LinearOrderedField α]
    (sqrt : α → α) (g : Hyper α) (p q : Param α)
    (st st' : Option (AdamState α))
    (h : stepParam sqrt g p st = .ok (q, st')) :
    q.grad = p.grad := by
  unfold stepParam at h
  cases hg : p.grad with
  | none =>
    rw [hg] at h
    simp only [Except.ok.injEq, Prod.mk.injEq] at h
    rw [← h.1, hg]
  | some gr =>
    rw [hg] at h
    cases hs : gr.is_sparse with
    | true =>
      simp [hs] at h
    | false =>
      simp only [hs, Bool.false_eq_true, if_false, Except.ok.injEq,
        Prod.mk.injEq] at h
      rw [← h.1]

/-- Witness for C10 at a concrete input: after a successful update the
returned parameter still carries exactly the gradient it came with. -/
theorem stepParam_preserves_grad_witness :
    stepParam (fun x => x) (⟨1, 0, 0, 1, 0⟩ : Hyper ℚ)
        ⟨[1], some ⟨[2], false⟩⟩ none
      = .ok (⟨[3/5], some ⟨[2], false⟩⟩, some ⟨1, [2], [4]⟩) ∧
    (⟨[3/5], some ⟨[2], false⟩⟩ : Param ℚ).grad
      = (⟨[1], some ⟨[2], false⟩⟩ : Param ℚ).grad :=
  ⟨by norm_num [stepParam, applyWeightDecay, updExpAvg, updExpAvgSq, mkDenom,
      updData, zipWith3],
    stepParam_preserves_grad (fun x => x) ⟨1, 0, 0, 1, 0⟩ _ _ none
      (some ⟨1, [2], [4]⟩)
      (by norm_num [stepParam, applyWeightDecay, updExpAvg, updExpAvgSq,
        mkDenom, updData, zipWith3])⟩

/-- Claim C8: with `weight_decay = 0` the update of `stepParam` coincides
with the variant in which the decay term is omitted entirely; and with
`weight_decay ≠ 0` the value `weight_decay * parameter` is added
elementwise to the gradient before the moment updates, so the update
equals the decay-free update run on that pre-decayed gradient (same state,
same parameter data). -/
theorem stepParam_weight_decay_additivity {α : Type} [LinearOrderedField α]
    (sqrt : α → α) (g : Hyper α) (p : Param α) (st : Option (AdamState α)) :
    (g.weight_decay = 0 → stepParam sqrt g p st = stepParamNoDecay sqrt g p st) ∧
    (∀ gr : Grad α, p.grad = some gr → gr.is_sparse = false →
      g.weight_decay ≠ 0 →
      ∃ q q' : Param α, ∃ st' : Option (AdamState α),
        stepParam sqrt g p st = .ok (q, st') ∧
        stepParamNoDecay sqrt g
          ⟨p.data, some ⟨List.zipWith (fun gv pv => gv + g.weight_decay * pv)
            gr.data p.data, false⟩⟩ st = .ok (q', st') ∧
        q.data = q'.data) := by
  constructor
  · intro hwd
    unfold stepParam stepParamNoDecay
    cases p.grad with
    | none => rfl
    | some gr =>
      cases hs : gr.is_sparse with
      | true => simp [hs]
      | false =>
        simp only [hs, Bool.false_eq_true, if_false, applyWeightDecay, hwd,
          ne_eq, not_true_eq_false, if_neg, ite_false, not_not]
  · intro gr hg hs hwd
    have hd : applyWeightDecay g.weight_decay gr.data p.data
        = List.zipWith (fun gv pv => gv + g.weight_decay * pv) gr.data p.data := by
      simp [applyWeightDecay, hwd]
    unfold stepParam stepParamNoDecay
    rw [hg]
    simp only [hs, Bool.false_eq_true, if_false, hd]
    exact ⟨_, _, _, rfl, rfl, rfl⟩

/-- Witness for C8 at concrete inputs: with zero decay the two functions
agree on a call, and with decay 3 the update equals the decay-free update
on the pre-decayed gradient. -/
theorem stepParam_weight_decay_additivity_witness :
    (stepParam (fun x => x) (⟨1, 0, 0, 1, 0⟩ : Hyper ℚ)
        ⟨[1], some ⟨[2], false⟩⟩ none
      = stepParamNoDecay (fun x => x) (⟨1, 0, 0, 1, 0⟩ : Hyper ℚ)
        ⟨[1], some ⟨[2], false⟩⟩ none) ∧
    (∃ q q' : Param ℚ, ∃ st' : Option (AdamState ℚ),
      stepParam (fun x => x) (⟨1, 0, 0, 1, 3⟩ : Hyper ℚ)
        ⟨[1], some ⟨[2], false⟩⟩ none = .ok (q, st') ∧
      stepParamNoDecay (fun x => x) (⟨1, 0, 0, 1, 3⟩ : Hyper ℚ)
        ⟨[1], some ⟨List.zipWith
          (fun gv pv => gv + (⟨1, 0, 0, 1, 3⟩ : Hyper ℚ).weight_decay * pv)
          [2] [1], false⟩⟩ none = .ok (q', st') ∧
      q.data = q'.data) :=
  ⟨(stepParam_weight_decay_additivity (fun x => x) ⟨1, 0, 0, 1, 0⟩
      ⟨[1], some ⟨[2], false⟩⟩ none).1 rfl,
    (stepParam_weight_decay_additivity (fun x => x) ⟨1, 0, 0, 1, 3⟩
      ⟨[1], some ⟨[2], false⟩⟩ none).2 ⟨[2], false⟩ rfl rfl (by norm_num)⟩

/-- Helper for C5: over any run of consecutive dense-gradient updates, the
stored step counter advances by exactly the number of updates, starting
from the previously stored counter (0 when no entry exists yet). -/
theorem runSteps_count {α : Type} [LinearOrderedField α]
    (sqrt : α → α) (g : Hyper α) (grads : List (Grad α)) :
    ∀ (p : Param α) (st : Option (AdamState α)),
      (∀ gr ∈ grads, gr.is_sparse = false) → grads ≠ [] →
      ∃ q : Param α, ∃ st' : AdamState α,
        runSteps sqrt g grads (p, st) = .ok (q, some st') ∧
        st'.step = stateStep st + grads.length := by
  induction grads with
  | nil =>
    intro p st _ hne
    exact absurd rfl hne
  | cons gr grs ih =>
    intro p st hd _
    obtain ⟨q, st1, hq, hstep, _⟩ :=
      stepParam_dense_ok sqrt g ⟨p.data, some gr⟩ gr st rfl
        (hd gr (List.mem_cons_self gr grs))
    cases grs with
    | nil =>
      refine ⟨q, st1, ?_, ?_⟩
      · unfold runSteps
        rw [hq]
        rfl
      · simpa using hstep
    | cons gr2 grs2 =>
      obtain ⟨q2, st2, hq2, hs2⟩ := ih q (some st1)
        (fun x hx => hd x (List.mem_cons_of_mem gr hx)) (by simp)
      refine ⟨q2, st2, ?_, ?_⟩
      · unfold runSteps
        rw [hq]
        exact hq2
      · rw [hs2]
        simp only [stateStep, hstep]
        simp [List.length_cons]
        omega

/-- Claim C5: the per-parameter step counter increases by exactly 1 on each
processed dense-gradient update and is never reset, so after N consecutive
calls to `step` starting from no state, the stored counter equals N. -/
theorem step_counter_equals_N {α : Type} [LinearOrderedField α]
    (sqrt : α → α) (g : Hyper α) (grads : List (Grad α)) (p : Param α)
    (hd : ∀ gr ∈ grads, gr.is_sparse = false) (hne : grads ≠ []) :
    ∃ q : Param α, ∃ st' : AdamState α,
      runSteps sqrt g grads (p, none) = .ok (q, some st') ∧
      st'.step = grads.length := by
  obtain ⟨q, st', h1, h2⟩ := runSteps_count sqrt g grads p none hd hne
  exact ⟨q, st', h1, by simpa [stateStep] using h2⟩

/-- Witness for C5 at a concrete input: three consecutive dense-gradient
updates leave the stored counter at 3. -/
theorem step_counter_equals_N_witness :
    (∀ gr ∈ ([⟨[1], false⟩, ⟨[2], false⟩, ⟨[3], false⟩] : List (Grad ℚ)),
      gr.is_sparse = false) ∧
    ([⟨[1], false⟩, ⟨[2], false⟩, ⟨[3], false⟩] : List (Grad ℚ)) ≠ [] ∧
    (∃ q : Param ℚ, ∃ st' : AdamState ℚ,
      runSteps (fun x => x) (⟨1, 0, 0, 1, 0⟩ : Hyper ℚ)
        [⟨[1], false⟩, ⟨[2], false⟩, ⟨[3], false⟩] (⟨[1], none⟩, none)
        = .ok (q, some st') ∧
      st'.step = [(⟨[1], false⟩ : Grad ℚ), ⟨[2], false⟩, ⟨[3], false⟩].length) :=
  ⟨by decide, by decide,
    step_counter_equals_N (fun x => x) ⟨1, 0, 0, 1, 0⟩
      [⟨[1], false⟩, ⟨[2], false⟩, ⟨[3], false⟩] ⟨[1], none⟩
      (by decide) (by decide)⟩

/-- Claim C9: with `eps > 0`, every entry of the elementwise denominator
`sqrt(exp_avg_sq) + eps` computed by `step` is strictly positive — even
when an entry of `exp_avg_sq` is exactly zero — so the division in the
parameter update never divides by zero. -/
theorem mkDenom_positive (eps : ℝ) (exp_avg_sq : List ℝ) (heps : 0 < eps) :
    ∀ d ∈ mkDenom Real.sqrt eps exp_avg_sq, 0 < d := by
  intro d hd
  simp only [mkDenom, List.mem_map] at hd
  obtain ⟨v, _, rfl⟩ := hd
  have hnn := Real.sqrt_nonneg v
  linarith

/-- Witness for C9 at a concrete input: with `eps = 1e-8` and a zero
second-moment tensor, the denominator entry is strictly positive. -/
theorem mkDenom_positive_witness :
    (0 : ℝ) < 1/100000000 ∧
    ∀ d ∈ mkDenom Real.sqrt (1/100000000 : ℝ) [0], 0 < d :=
  ⟨by norm_num, mkDenom_positive (1/100000000) [0] (by norm_num)⟩

/-- Claim C3: for parameter `[1.0]`, gradient `[0.1]`, `lr = 1e-3`,
`betas = (0.9, 0.999)`, `eps = 1e-8`, `weight_decay = 0` and all-zero
starting state, one call to `step` yields `exp_avg = [0.01]`,
`exp_avg_sq = [1e-5]`, step counter 1 (so `bc1 = 0.1`, `bc2 = 0.001`),
step size `ss ≈ 3.1623e-4`, denominator `dn ≈ 3.16228e-3`, a parameter
delta strictly between `-1.0e-3` and `-0.9999e-3`, and a resulting
parameter value `≈ 0.999` (strictly between `0.999` and `0.9990001`). -/
theorem adam_concrete_scenario :
    ∃ ss dn x : ℝ,
      ss = 1/1000 * Real.sqrt (1/1000) / (1/10) ∧
      dn = Real.sqrt (1/100000) + 1/100000000 ∧
      x = 1 + -ss * (1/100 / dn) ∧
      stepParam Real.sqrt (⟨1/1000, 9/10, 999/1000, 1/100000000, 0⟩ : Hyper ℝ)
          ⟨[1], some ⟨[1/10], false⟩⟩ none
        = .ok (⟨[x], some ⟨[1/10], false⟩⟩, some ⟨1, [1/100], [1/100000]⟩) ∧
      3162277/10000000000 < ss ∧ ss < 3162278/10000000000 ∧
      31622876/10000000000 < dn ∧ dn < 31622877/10000000000 ∧
      -(1/1000) < x - 1 ∧ x - 1 < -(9999/10000000) ∧
      999/1000 < x ∧ x < 9990001/10000000 := by
  have hs2a : (31622776/10000000000 : ℝ) < Real.sqrt (1/100000) :=
    (Real.lt_sqrt (by norm_num)).mpr (by norm_num)
  have hs2b : Real.sqrt (1/100000) < 31622777/10000000000 :=
    (Real.sqrt_lt' (by norm_num)).mpr (by norm_num)
  have h100 : Real.sqrt 100 = 10 := by
    rw [show (100 : ℝ) = 10 ^ 2 by norm_num, Real.sqrt_sq (by norm_num)]
  have hmul : Real.sqrt (1/1000) = 10 * Real.sqrt (1/100000) := by
    rw [show (1/1000 : ℝ) = 100 * (1/100000) by norm_num,
      Real.sqrt_mul (by norm_num), h100]
  have hD : (0 : ℝ) < Real.sqrt (1/100000) + 1/100000000 := by positivity
  have key : (1 : ℝ) + -(1/1000 * Real.sqrt (1/1000) / (1/10)) *
      (1/100 / (Real.sqrt (1/100000) + 1/100000000)) - 1
      = -(Real.sqrt (1/100000)
          / (1000 * (Real.sqrt (1/100000) + 1/100000000))) := by
    rw [hmul]
    field_simp
    ring
  have h5 : -(1/1000 : ℝ) < (1 : ℝ) + -(1/1000 * Real.sqrt (1/1000) / (1/10)) *
      (1/100 / (Real.sqrt (1/100000) + 1/100000000)) - 1 := by
    rw [key, neg_lt_neg_iff, div_lt_div_iff₀ (by positivity) (by norm_num)]
    linarith
  have h6 : (1 : ℝ) + -(1/1000 * Real.sqrt (1/1000) / (1/10)) *
      (1/100 / (Real.sqrt (1/100000) + 1/100000000)) - 1 < -(9999/10000000) := by
    rw [key, neg_lt_neg_iff, div_lt_div_iff₀ (by norm_num) (by positivity)]
    linarith
  refine ⟨_, _, _, rfl, rfl, rfl, ?_, ?_, ?_, ?_, ?_, h5, h6, ?_, ?_⟩
  · norm_num [stepParam, applyWeightDecay, updExpAvg, updExpAvgSq, mkDenom,
      updData, zipWith3]
  · rw [hmul]; nlinarith [hs2a]
  · rw [hmul]; nlinarith [hs2b]
  · linarith
  · linarith
  · linarith [h5]
  · linarith [h6]
